import Mathlib

/-!
Shallow embedding of `packages/next/src/lib/metadata/metadata.tsx`.

The file coordinates asynchronous metadata resolution for the app renderer:
`getResolvedMetadata` runs the external tree-walking resolver (once, plus at
most one `not-found` fallback pass), `createMetadataComponents` wires the
`MetadataTree` head unit and the `getMetadataReady` fault outlet around a
shared readiness cell, and `createTrackedMetadataContext` wraps the metadata
context's `pathname` field in an access-tracking getter.

Embedding conventions:
* The code is single-threaded JavaScript; `await` on an already-constructed
  promise chain is plain sequencing, so the async functions become pure Lean
  functions.  A promise settlement is an `Except` value: `Except.error e`
  models a rejection with `e`, `Except.ok v` a fulfillment with `v`.
* External collaborators (the tree-walking resolver `resolveMetadata`, the
  twelve element builders, the `MetaFilter` combinator and the
  `isNotFoundError` predicate) are imported from other modules; they are
  parameters of the embedding, bundled in `MetadataEnv`.  The loader tree,
  query, param accessors and metadata context are fixed closure state of one
  request, so the resolver is a function of the one argument that varies
  between the two calls in the source: the error convention.  Each builder
  receives its slice of the resolved metadata; the slice projection and the
  builder are both external, so the composite is one abstract function.
* To reason about how many resolver passes run, `getResolvedMetadataCalls`
  mirrors `getResolvedMetadata` branch for branch and records the
  `errorConvention` argument of each resolver invocation, in order.
-/

namespace NextMetadata

/-- The `errorType` parameter of `createMetadataComponents` /
`getResolvedMetadata`: `'not-found' | 'redirect'` (optional, so the embedding
uses `Option ErrorType`). -/
inductive ErrorType
  | notFound
  | redirect
  deriving DecidableEq, Repr

/-- The error-convention flag handed to the tree-walking resolver:
`'not-found' | undefined`, embedded as `Option ErrConvention`. -/
inductive ErrConvention
  | notFound
  deriving DecidableEq, Repr

/-- The fixed per-request collaborators of `metadata.tsx`, over abstract types
of errors `Err`, resolved metadata `M`, resolved viewport `V` and head-tag
descriptors `El`.

`resolveMetadata` is the external tree walker: called with the loader tree,
empty accumulators, the error sentinel `[null, null, null]`, the tracked
search params, the segment-param accessor, an error convention and the
metadata context, it fulfills with `[error | null, metadata, viewport]`.
Everything except the error convention is identical between the two call
sites in `getResolvedMetadata`, so only that argument is kept. -/
structure MetadataEnv (Err M V El : Type) where
  resolveMetadata : Option ErrConvention → Option Err × M × V
  isNotFoundError : Err → Bool
  MetaFilter : List (List (Option El)) → List El
  ViewportMeta : V → List (Option El)
  BasicMeta : M → List (Option El)
  AlternatesMetadata : M → List (Option El)
  ItunesMeta : M → List (Option El)
  FacebookMeta : M → List (Option El)
  FormatDetectionMeta : M → List (Option El)
  VerificationMeta : M → List (Option El)
  AppleWebAppMeta : M → List (Option El)
  OpenGraphMetadata : M → List (Option El)
  TwitterMetadata : M → List (Option El)
  AppLinksMeta : M → List (Option El)
  IconsMetadata : M → List (Option El)

variable {Err M V El : Type}

/-- `const errorConvention = errorType === 'redirect' ? undefined : errorType`
(line 186): a redirect is not a metadata error convention, only `not-found`
survives the translation. -/
def errConventionOf (errorType : Option ErrorType) : Option ErrConvention :=
  match errorType with
  | some ErrorType.redirect => none
  | some ErrorType.notFound => some ErrConvention.notFound
  | none => none

/-- `createMetadataElements` (lines 229-247): the twelve builders applied to
the resolved metadata/viewport in the fixed source order, combined by
`MetaFilter`. -/
def createMetadataElements (env : MetadataEnv Err M V El) (metadata : M) (viewport : V) :
    List El :=
  env.MetaFilter [
    env.ViewportMeta viewport,
    env.BasicMeta metadata,
    env.AlternatesMetadata metadata,
    env.ItunesMeta metadata,
    env.FacebookMeta metadata,
    env.FormatDetectionMeta metadata,
    env.VerificationMeta metadata,
    env.AppleWebAppMeta metadata,
    env.OpenGraphMetadata metadata,
    env.TwitterMetadata metadata,
    env.AppLinksMeta metadata,
    env.IconsMetadata metadata]

/-- `getResolvedMetadata` (lines 174-227).  First resolver pass with the
convention derived from `errorType`; on success, element assembly; on a
not-found error with no explicit `errorType` (`!errorType &&
isNotFoundError(error)`), one fallback pass with convention `'not-found'`
against the same tree, returning `[notFoundMetadataError || error,
elements-of-the-fallback-pass]`; otherwise `[error, []]`. -/
def getResolvedMetadata (env : MetadataEnv Err M V El) (errorType : Option ErrorType) :
    Option Err × List El :=
  match env.resolveMetadata (errConventionOf errorType) with
  | (none, metadata, viewport) => (none, createMetadataElements env metadata viewport)
  | (some error, _, _) =>
    if errorType.isNone && env.isNotFoundError error then
      match env.resolveMetadata (some ErrConvention.notFound) with
      | (notFoundMetadataError, notFoundMetadata, notFoundViewport) =>
        (match notFoundMetadataError with
         | some fallbackError => some fallbackError
         | none => some error,
         createMetadataElements env notFoundMetadata notFoundViewport)
    else (some error, [])

/-- The error conventions passed to `resolveMetadata`, one list entry per
resolver invocation of `getResolvedMetadata`, in call order; mirrors
`getResolvedMetadata` branch for branch. -/
def getResolvedMetadataCalls (env : MetadataEnv Err M V El) (errorType : Option ErrorType) :
    List (Option ErrConvention) :=
  match env.resolveMetadata (errConventionOf errorType) with
  | (none, _, _) => [errConventionOf errorType]
  | (some error, _, _) =>
    if errorType.isNone && env.isNotFoundError error then
      [errConventionOf errorType, some ErrConvention.notFound]
    else [errConventionOf errorType]

/-- The `status` tag of the instrumented `metadataReady` promise
(lines 123-140). -/
inductive PromiseStatus
  | pending
  | fulfilled
  | rejected
  deriving DecidableEq, Repr

/-- One observable state of the instrumented promise: its `status` and
`value` fields (`value` is `undefined` — here `none` — until rejection
stores the error). -/
structure ReadinessCell (Err : Type) where
  status : PromiseStatus
  value : Option Err
  deriving DecidableEq, Repr

/-- The fulfillment continuation of `pendingMetadata.then` (lines 125-133):
given the settled `[error, elements]` pair, it writes
`status = 'rejected', value = error` and re-throws when `error` is present,
else writes `status = 'fulfilled', value = undefined`.  Returns the written
cell and the re-thrown error (if any). -/
def metadataReadySuccessCont (res : Option Err × List El) :
    ReadinessCell Err × Option Err :=
  match res.1 with
  | some error => (⟨PromiseStatus.rejected, some error⟩, some error)
  | none => (⟨PromiseStatus.fulfilled, none⟩, none)

/-- The rejection continuation of `pendingMetadata.then` (lines 134-138):
writes `status = 'rejected', value = error` and re-throws. -/
def metadataReadyFailureCont (error : Err) : ReadinessCell Err × Option Err :=
  (⟨PromiseStatus.rejected, some error⟩, some error)

/-- The writes to the `metadataReady` `status`/`value` fields, in program
order, for a given settlement `outcome` of `pendingMetadata`.  Line 140 sets
`status = 'pending'` synchronously, in the same JavaScript job that attached
the continuations, so it precedes any continuation write; the promise runtime
then runs exactly one of the two `then` continuations, exactly once, when
`pendingMetadata` settles. -/
def metadataReadyWrites (outcome : Except Err (Option Err × List El)) :
    List (ReadinessCell Err) :=
  ⟨PromiseStatus.pending, none⟩ ::
    [match outcome with
     | Except.ok res => (metadataReadySuccessCont res).1
     | Except.error error => (metadataReadyFailureCont error).1]

/-- A node of the `MetadataTree` render output (lines 150-157): either one
builder element cloned with its positional `key`, or the auxiliary
`<meta name="next-size-adjust" />` tag. -/
inductive RenderedNode (El : Type)
  | keyed (key : Nat) (element : El)
  | sizeAdjustMeta
  deriving DecidableEq, Repr

/-- The fragment `MetadataTree` returns (lines 150-157): each element of the
resolved list wrapped via `React.cloneElement(el, { key: index })`, followed
by the size-adjust meta tag when `appUsingSizeAdjustment` is set (the `null`
of the conditional renders nothing, hence the empty suffix). -/
def metadataTreeOutput (elements : List El) (appUsingSizeAdjustment : Bool) :
    List (RenderedNode El) :=
  (elements.enum.map fun p => RenderedNode.keyed p.1 p.2) ++
    (if appUsingSizeAdjustment then [RenderedNode.sizeAdjustMeta] else [])

/-- The body of `MetadataTree` after the readiness wiring (lines 146-157):
`await pendingMetadata` re-throws a rejection of the pending promise, while a
fulfilled `[error, elements]` pair has its error component deliberately
discarded and only `elements` rendered. -/
def MetadataTree (appUsingSizeAdjustment : Bool)
    (outcome : Except Err (Option Err × List El)) :
    Except Err (List (RenderedNode El)) :=
  match outcome with
  | Except.error error => Except.error error
  | Except.ok (_, elements) =>
      Except.ok (metadataTreeOutput elements appUsingSizeAdjustment)

/-- `getMetadataReady` (lines 160-169): after one scheduler tick
(`Promise.resolve().then`), return the published `currentMetadataReady` cell
if `MetadataTree` has set it, else throw the ordering-violation error.  The
published value is abstract (`α`); the thrown message is the source string. -/
def getMetadataReady (currentMetadataReady : Option α) : Except String α :=
  match currentMetadataReady with
  | some metadataReady => Except.ok metadataReady
  | none => Except.error "getMetadataReady was called before MetadataTree rendered"

/-- `renderOpts` fields read by `createMetadataContext`. -/
structure RenderOpts where
  trailingSlash : Bool
  nextConfigOutput : Option String
  deriving DecidableEq, Repr

/-- `MetadataContext` as built by `createMetadataContext` (lines 37-46). -/
structure MetadataContext where
  pathname : String
  trailingSlash : Bool
  isStandaloneMode : Bool
  deriving DecidableEq, Repr

/-- `createMetadataContext` (lines 37-46). -/
def createMetadataContext (pathname : String) (renderOpts : RenderOpts) :
    MetadataContext :=
  { pathname := pathname
    trailingSlash := renderOpts.trailingSlash
    isStandaloneMode := renderOpts.nextConfigOutput == some "standalone" }

/-- The fields of the static-generation store that the pathname trap reads:
`isStaticGeneration` and `fallbackRouteParams` (a nullable map, embedded as
`Option` of its key list, so `.size` is the list length). -/
structure StaticGenerationStore where
  isStaticGeneration : Bool
  fallbackRouteParams : Option (List String)
  deriving DecidableEq, Repr

/-- The observable effect of the external `trackFallbackParamAccessed`
collaborator: one recorded access event naming the accessed parameter. -/
inductive TrackEvent
  | fallbackParamAccessed (param : String)
  deriving DecidableEq, Repr

/-- The context returned by `createTrackedMetadataContext`: same shape as
`MetadataContext`, but the `pathname` property is a getter; reading it
returns the pathname and performs the tracking side effect, embedded as the
list of emitted events. -/
structure TrackedMetadataContext where
  pathnameGet : Unit → String × List TrackEvent
  trailingSlash : Bool
  isStandaloneMode : Bool

/-- `createTrackedMetadataContext` (lines 48-74): spread of the regular
context with the `pathname` access trapped.  The getter calls
`trackFallbackParamAccessed(store, 'pathname')` exactly when the store is
non-null, `isStaticGeneration` holds and `fallbackRouteParams` is non-null
with positive size, and always returns the captured `pathname`. -/
def createTrackedMetadataContext (pathname : String) (renderOpts : RenderOpts)
    (staticGenerationStore : Option StaticGenerationStore) :
    TrackedMetadataContext :=
  let base := createMetadataContext pathname renderOpts
  { trailingSlash := base.trailingSlash
    isStandaloneMode := base.isStandaloneMode
    pathnameGet := fun _ =>
      match staticGenerationStore with
      | some sgs =>
        if sgs.isStaticGeneration &&
            (match sgs.fallbackRouteParams with
             | some ps => decide (0 < ps.length)
             | none => false) then
          (pathname, [TrackEvent.fallbackParamAccessed "pathname"])
        else (pathname, [])
      | none => (pathname, []) }

/-! Concrete instances used by witnesses and counterexamples: error, metadata,
viewport and element types are all `Nat`; the resolver reports the not-found
error `404` on the plain pass and clean metadata `7` / viewport `8` on the
`not-found` convention pass; `MetaFilter` flattens and drops `null`s, the
viewport and basic builders emit one element each. -/

/-- Test collaborators: first pass fails with not-found error `404`, the
`not-found` convention pass succeeds with metadata `7`, viewport `8`. -/
def testEnv : MetadataEnv Nat Nat Nat Nat where
  resolveMetadata := fun conv =>
    match conv with
    | none => (some 404, 0, 0)
    | some ErrConvention.notFound => (none, 7, 8)
  isNotFoundError := fun e => e == 404
  MetaFilter := fun items => items.flatten.filterMap id
  ViewportMeta := fun v => [some v]
  BasicMeta := fun m => [some m, none]
  AlternatesMetadata := fun _ => []
  ItunesMeta := fun _ => []
  FacebookMeta := fun _ => []
  FormatDetectionMeta := fun _ => []
  VerificationMeta := fun _ => []
  AppleWebAppMeta := fun _ => []
  OpenGraphMetadata := fun _ => []
  TwitterMetadata := fun _ => []
  AppLinksMeta := fun _ => []
  IconsMetadata := fun _ => []

/-- Test collaborators whose resolver always succeeds with metadata `7`,
viewport `8`. -/
def testEnvOk : MetadataEnv Nat Nat Nat Nat :=
  { testEnv with resolveMetadata := fun _ => (none, 7, 8) }

/-- Helper: an absent `errorType` yields an undefined error convention. -/
theorem errConventionOf_eq_none : errConventionOf none = none := rfl

/-- C1: when the first resolver pass returns a not-found error and no explicit
`errorType` was supplied, `getResolvedMetadata` performs exactly one fallback
pass with error convention `'not-found'` against the same tree (the call
trace is `[none, some notFound]`), discards the first pass's result, and
returns the fallback pass's error if it produced one — else the original
not-found error — always paired with the elements assembled from the
fallback pass's metadata and viewport. -/
theorem getResolvedMetadata_notFound_fallback (env : MetadataEnv Err M V El)
    (e : Err) (m : M) (v : V) (e2 : Option Err) (m2 : M) (v2 : V)
    (h1 : env.resolveMetadata none = (some e, m, v))
    (h2 : env.isNotFoundError e = true)
    (h3 : env.resolveMetadata (some ErrConvention.notFound) = (e2, m2, v2)) :
    getResolvedMetadataCalls env none = [none, some ErrConvention.notFound] ∧
    getResolvedMetadata env none = (some (e2.getD e), createMetadataElements env m2 v2) := by
  have h1c : env.resolveMetadata (errConventionOf none) = (some e, m, v) := h1
  constructor
  · simp [getResolvedMetadataCalls, h1c, h1, h2, errConventionOf_eq_none]
  · simp only [getResolvedMetadata, h1c, h1, h2, h3, Option.isNone_none,
      Bool.true_and, if_true]
    cases e2 <;> rfl

/-- C1 witness: `testEnv` at `errorType = none` — not-found error `404` on the
first pass, fallback succeeds with metadata `7` / viewport `8`, so the result
keeps the original error and takes the fallback's elements `[8, 7]`. -/
theorem getResolvedMetadata_notFound_fallback_witness :
    testEnv.resolveMetadata none = (some 404, 0, 0) ∧
    testEnv.isNotFoundError 404 = true ∧
    testEnv.resolveMetadata (some ErrConvention.notFound) = (none, 7, 8) ∧
    getResolvedMetadataCalls testEnv none = [none, some ErrConvention.notFound] ∧
    getResolvedMetadata testEnv none = (some 404, [8, 7]) := by
  refine ⟨rfl, rfl, rfl, ?_, ?_⟩
  · exact (getResolvedMetadata_notFound_fallback testEnv 404 0 0 none 7 8 rfl rfl rfl).1
  · exact (getResolvedMetadata_notFound_fallback testEnv 404 0 0 none 7 8 rfl rfl rfl).2

/-- C2 counterexample: at `testEnv` with no `errorType`, the first pass fails
with the not-found error `404` and the fallback pass succeeds, so
`getResolvedMetadata` returns a non-null error together with the non-empty
fallback element list `[8, 7]` — error and elements are not mutually
exclusive. -/
theorem getResolvedMetadata_error_and_elements_coexist :
    ((getResolvedMetadata testEnv none).1).isSome = true ∧
    (getResolvedMetadata testEnv none).2 ≠ [] := by
  constructor
  · rfl
  · decide

/-- C2 (amended): whenever `getResolvedMetadata` returns a non-null error,
either the element list is empty, or no explicit `errorType` was supplied and
the not-found fallback pass ran, in which case the elements are the ones
assembled from the fallback pass's metadata and viewport (and may be
non-empty). -/
theorem getResolvedMetadata_error_elements_cases (env : MetadataEnv Err M V El)
    (errorType : Option ErrorType)
    (h : ((getResolvedMetadata env errorType).1).isSome = true) :
    (getResolvedMetadata env errorType).2 = [] ∨
    (errorType = none ∧
      getResolvedMetadataCalls env errorType = [none, some ErrConvention.notFound] ∧
      (getResolvedMetadata env errorType).2 =
        createMetadataElements env
          (env.resolveMetadata (some ErrConvention.notFound)).2.1
          (env.resolveMetadata (some ErrConvention.notFound)).2.2) := by
  rcases hr : env.resolveMetadata (errConventionOf errorType) with ⟨err, m, v⟩
  cases err with
  | none => simp [getResolvedMetadata, hr] at h
  | some e =>
    by_cases hc : (errorType.isNone && env.isNotFoundError e) = true
    · right
      have ht : errorType = none := by
        cases errorType with
        | none => rfl
        | some t => simp at hc
      subst ht
      have hnfe : env.isNotFoundError e = true := by simpa using hc
      have hr0 : env.resolveMetadata none = (some e, m, v) := hr
      refine ⟨rfl, ?_, ?_⟩
      · simp [getResolvedMetadataCalls, hr, hr0, hnfe, errConventionOf_eq_none]
      · rcases hnf : env.resolveMetadata (some ErrConvention.notFound) with ⟨e2, m2, v2⟩
        simp [getResolvedMetadata, hr, hr0, hnfe, hnf]
    · left
      simp [getResolvedMetadata, hr, hc]

/-- C2 witness for the amended statement: `testEnv` with
`errorType = 'redirect'` returns the error `404` with an empty element
list. -/
theorem getResolvedMetadata_error_elements_cases_witness :
    ((getResolvedMetadata testEnv (some ErrorType.redirect)).1).isSome = true ∧
    ((getResolvedMetadata testEnv (some ErrorType.redirect)).2 = [] ∨
      (some ErrorType.redirect = (none : Option ErrorType) ∧
        getResolvedMetadataCalls testEnv (some ErrorType.redirect) =
          [none, some ErrConvention.notFound] ∧
        (getResolvedMetadata testEnv (some ErrorType.redirect)).2 =
          createMetadataElements testEnv
            (testEnv.resolveMetadata (some ErrConvention.notFound)).2.1
            (testEnv.resolveMetadata (some ErrConvention.notFound)).2.2)) :=
  ⟨rfl, getResolvedMetadata_error_elements_cases testEnv (some ErrorType.redirect) rfl⟩

/-- C3: when the first resolver pass returns an error and either an explicit
`errorType` was supplied or the error is not classified as not-found,
`getResolvedMetadata` performs no fallback pass — the resolver is invoked
exactly once — and returns the original error with an empty element list. -/
theorem getResolvedMetadata_no_fallback (env : MetadataEnv Err M V El)
    (errorType : Option ErrorType) (e : Err) (m : M) (v : V)
    (h1 : env.resolveMetadata (errConventionOf errorType) = (some e, m, v))
    (h2 : errorType.isSome = true ∨ env.isNotFoundError e = false) :
    getResolvedMetadataCalls env errorType = [errConventionOf errorType] ∧
    getResolvedMetadata env errorType = (some e, []) := by
  have hc : (errorType.isNone && env.isNotFoundError e) = false := by
    rcases h2 with h2 | h2
    · cases errorType with
      | none => simp at h2
      | some t => simp
    · simp [h2]
  constructor
  · simp [getResolvedMetadataCalls, h1, hc]
  · simp [getResolvedMetadata, h1, hc]

/-- C3 witness: `testEnv` with explicit `errorType = 'redirect'` — the first
pass fails with `404` but no fallback runs (one resolver call) and the result
is the original error with no elements. -/
theorem getResolvedMetadata_no_fallback_witness :
    testEnv.resolveMetadata (errConventionOf (some ErrorType.redirect)) = (some 404, 0, 0) ∧
    ((some ErrorType.redirect : Option ErrorType).isSome = true ∨
      testEnv.isNotFoundError 404 = false) ∧
    getResolvedMetadataCalls testEnv (some ErrorType.redirect) = [none] ∧
    getResolvedMetadata testEnv (some ErrorType.redirect) = (some 404, []) := by
  refine ⟨rfl, Or.inl rfl, ?_, ?_⟩
  · exact (getResolvedMetadata_no_fallback testEnv (some ErrorType.redirect)
      404 0 0 rfl (Or.inl rfl)).1
  · exact (getResolvedMetadata_no_fallback testEnv (some ErrorType.redirect)
      404 0 0 rfl (Or.inl rfl)).2

/-- C8: when the first resolver pass returns no error, `getResolvedMetadata`
returns a null error paired with the elements assembled by
`createMetadataElements` — `MetaFilter` over the twelve builders in source
order — from the resolved metadata and viewport, after exactly one resolver
invocation. -/
theorem getResolvedMetadata_success (env : MetadataEnv Err M V El)
    (errorType : Option ErrorType) (m : M) (v : V)
    (h : env.resolveMetadata (errConventionOf errorType) = (none, m, v)) :
    getResolvedMetadata env errorType = (none, createMetadataElements env m v) ∧
    getResolvedMetadataCalls env errorType = [errConventionOf errorType] := by
  constructor
  · simp [getResolvedMetadata, h]
  · simp [getResolvedMetadataCalls, h]

/-- C8 witness: `testEnvOk` with no `errorType` resolves cleanly to metadata
`7` / viewport `8`, and the result is `(null, [8, 7])` — viewport element
first, then the basic element, as assembled by the builder pipeline. -/
theorem getResolvedMetadata_success_witness :
    testEnvOk.resolveMetadata (errConventionOf none) = (none, 7, 8) ∧
    getResolvedMetadata testEnvOk none = (none, [8, 7]) ∧
    getResolvedMetadataCalls testEnvOk none = [none] := by
  refine ⟨rfl, ?_, ?_⟩
  · exact (getResolvedMetadata_success testEnvOk none 7 8 rfl).1
  · exact (getResolvedMetadata_success testEnvOk none 7 8 rfl).2

/-- C9: the error-convention flag of the first resolver pass is
`errConventionOf errorType`, which is `undefined` for `errorType =
'redirect'` and for an absent `errorType`, and is `'not-found'` exactly for
`errorType = 'not-found'` (the three equations cover every `errorType`). -/
theorem errConvention_of_errorType (env : MetadataEnv Err M V El)
    (errorType : Option ErrorType) :
    (getResolvedMetadataCalls env errorType).head? = some (errConventionOf errorType) ∧
    errConventionOf (some ErrorType.redirect) = none ∧
    errConventionOf none = none ∧
    errConventionOf (some ErrorType.notFound) = some ErrConvention.notFound := by
  refine ⟨?_, rfl, rfl, rfl⟩
  rcases hr : env.resolveMetadata (errConventionOf errorType) with ⟨err, m, v⟩
  cases err with
  | none => simp [getResolvedMetadataCalls, hr]
  | some e =>
    by_cases hc : (errorType.isNone && env.isNotFoundError e) = true <;>
      simp [getResolvedMetadataCalls, hr, hc]

/-- C4: when the shared cell is still null — `MetadataTree` has not yet
published the readiness state in this request — `getMetadataReady` fails with
the ordering-violation programming error naming the violated precondition; as
an equation of a total function it settles to exactly this rejection, so the
call neither hangs nor fulfills. -/
theorem getMetadataReady_before_publish (α : Type) :
    getMetadataReady (none : Option α) =
      Except.error "getMetadataReady was called before MetadataTree rendered" := rfl

/-- C5: for every settlement outcome of the pending metadata, the writes to
the readiness state are exactly two: first `status = 'pending'` (performed
synchronously, before any continuation can run), then a single settlement
write — `('fulfilled', undefined)` when the outcome is an error-free pair,
`('rejected', error)` when the pair carries an error or the promise rejected.
The settled write is never `'pending'` and there is no third write, so the
status transitions exactly once and never regresses. -/
theorem metadataReady_single_transition (outcome : Except Err (Option Err × List El)) :
    metadataReadyWrites outcome =
      [⟨PromiseStatus.pending, none⟩,
       match outcome with
       | Except.ok (none, _) => ⟨PromiseStatus.fulfilled, none⟩
       | Except.ok (some error, _) => ⟨PromiseStatus.rejected, some error⟩
       | Except.error error => ⟨PromiseStatus.rejected, some error⟩] := by
  cases outcome with
  | error e => rfl
  | ok res =>
    rcases res with ⟨err, els⟩
    cases err <;> rfl

/-- C6: for every resolution outcome delivered by the resolver — an
`[error, elements]` pair, including pairs whose error component is present —
`MetadataTree` completes its own rendering without throwing: it discards the
error component and returns the rendered output, so the error is surfaced
only through the fault outlet. -/
theorem MetadataTree_never_throws (appUsingSizeAdjustment : Bool)
    (error : Option Err) (elements : List El) :
    MetadataTree appUsingSizeAdjustment (Except.ok (error, elements)) =
      Except.ok (metadataTreeOutput elements appUsingSizeAdjustment) := rfl

/-- C7: on a successful resolution, `MetadataTree`'s output is the builder
element list, each element wrapped with a positional key equal to its index,
plus exactly one `next-size-adjust` meta tag iff `appUsingSizeAdjustment` is
set: the output length is the element count plus the flag, and position `i`
holds the `i`-th builder element keyed `i`. -/
theorem MetadataTree_output_shape (elements : List El) (appUsingSizeAdjustment : Bool) :
    MetadataTree appUsingSizeAdjustment (Except.ok ((none : Option Err), elements)) =
      Except.ok (metadataTreeOutput elements appUsingSizeAdjustment) ∧
    (metadataTreeOutput elements appUsingSizeAdjustment).length =
      elements.length + (if appUsingSizeAdjustment then 1 else 0) ∧
    ∀ i (h : i < elements.length),
      (metadataTreeOutput elements appUsingSizeAdjustment).get? i =
        some (RenderedNode.keyed i elements[i]) := by
  refine ⟨rfl, ?_, ?_⟩
  · cases appUsingSizeAdjustment <;> simp [metadataTreeOutput]
  · intro i h
    have hlen : i < (elements.enum.map
        fun p => RenderedNode.keyed p.1 p.2).length := by
      simpa using h
    rw [metadataTreeOutput, List.get?_eq_getElem?, List.getElem?_append_left hlen,
      List.getElem?_map, List.getElem?_enum, List.getElem?_eq_getElem h]
    rfl

/-- C10: reading the `pathname` field of a tracked metadata context always
returns the original pathname argument (and, being a total function, never
throws); the fallback-param access event is recorded exactly when a
static-generation store is present, static generation is in progress, and the
set of outstanding fallback route params is non-empty — in every other case
the read records nothing. -/
theorem createTrackedMetadataContext_pathname_read (pathname : String)
    (renderOpts : RenderOpts) (store : Option StaticGenerationStore) :
    (((createTrackedMetadataContext pathname renderOpts store).pathnameGet ()).1
      = pathname) ∧
    (∀ sgs ps, store = some sgs → sgs.isStaticGeneration = true →
      sgs.fallbackRouteParams = some ps → 0 < ps.length →
      ((createTrackedMetadataContext pathname renderOpts store).pathnameGet ()).2 =
        [TrackEvent.fallbackParamAccessed "pathname"]) ∧
    (∀ sgs, store = some sgs →
      (sgs.isStaticGeneration = false ∨ sgs.fallbackRouteParams = none ∨
        sgs.fallbackRouteParams = some []) →
      ((createTrackedMetadataContext pathname renderOpts store).pathnameGet ()).2 = []) ∧
    (store = none →
      ((createTrackedMetadataContext pathname renderOpts store).pathnameGet ()).2 = []) := by
  refine ⟨?_, ?_, ?_, ?_⟩
  · cases store with
    | none => rfl
    | some sgs =>
      simp only [createTrackedMetadataContext]
      split <;> rfl
  · intro sgs ps hs hg hp hlen
    subst hs
    simp [createTrackedMetadataContext, hg, hp, hlen]
  · intro sgs hs hcase
    subst hs
    rcases hcase with hg | hp | hp
    · simp [createTrackedMetadataContext, hg]
    · simp [createTrackedMetadataContext, hp]
    · simp [createTrackedMetadataContext, hp]
  · intro hs
    subst hs
    rfl

/-- C10 witness: with a store in static generation holding one outstanding
fallback param, reading `pathname` returns the pathname and records the
access event. -/
theorem createTrackedMetadataContext_pathname_read_witness :
    (((createTrackedMetadataContext "/blog" ⟨true, none⟩
        (some ⟨true, some ["slug"]⟩)).pathnameGet ()).1 = "/blog") ∧
    (((createTrackedMetadataContext "/blog" ⟨true, none⟩
        (some ⟨true, some ["slug"]⟩)).pathnameGet ()).2 =
      [TrackEvent.fallbackParamAccessed "pathname"]) := by
  have h := createTrackedMetadataContext_pathname_read "/blog" ⟨true, none⟩
    (some ⟨true, some ["slug"]⟩)
  exact ⟨h.1, h.2.1 ⟨true, some ["slug"]⟩ ["slug"] rfl rfl rfl (by decide)⟩

end NextMetadata
